import Mathlib

/-
Shallow embedding of the real-time fan-out layer of the TaskFlow
repository (backend task routes, socket emitters, connection gate, and
the client-side reconciler), together with theorems settling the
specification claims about it.

Sources embedded:
  - src/backend/src/socket/socket.ts   (connection gate, emit helpers,
    task event emitters, and the task REST routes that invoke them)
  - src/backend/src/models/user.model.ts / task.model.ts (data shapes,
    dueDate schema validator)
  - src/frontend/src/pages/DashboardPage.tsx (handleTaskUpdated cache merge)

Representation notes, applying uniformly:
  - Mongo ObjectId values are modelled as `String`; Mongoose compares
    ObjectIds by value inside `includes` / `findIndex`, which string
    equality models directly.
  - `populate` resolves owner / sharedWith ids to user display records;
    the routes only ever read the `_id` back out of the populated
    records (`u._id.toString()`), so tasks are kept in unpopulated form
    (ids), which `populate` preserves.
  - Dates are epoch milliseconds (`Int`); `Date.now() + 60000` becomes
    `now + 60000`.
-/

namespace TaskFlow

/-- A stored user record (src/backend/src/models/user.model.ts); only the
fields the fan-out layer reads are kept. `uid` is the Mongo `_id` as a
string. -/
structure UserRec where
  uid : String
  firebaseUid : Option String
  email : String
  displayName : String
  profilePicture : String
deriving Repr, DecidableEq

/-- A stored task record (src/backend/src/models/task.model.ts). `tid` is
the Mongo `_id`; `owner` and `sharedWith` hold user ids (unpopulated
form). `status` and `priority` are kept as the raw strings the schema
stores; `dueDate` is epoch milliseconds. -/
structure Task where
  tid : String
  title : String
  description : Option String
  status : String
  priority : String
  dueDate : Option Int
  owner : String
  sharedWith : List String
  tags : List String
deriving Repr, DecidableEq

/-- The payload object attached to a socket emission. Each constructor is
one payload shape built in src/backend/src/socket/socket.ts:
`fullTask` is `{ ...sanitizedTask, timestamp, event }`, `idWithMeta` is
`{ taskId, timestamp, event }` (emitTaskDeleted), `idOnly` is
`{ taskId }` (the inline task_unshared emit in the unshare route), and
`unsharedFull` is `{ taskId, updatedTask, timestamp, event }`
(emitTaskUnshared). -/
inductive Payload where
  | fullTask (task : Task) (timestamp : Int) (event : String)
  | idWithMeta (taskId : String) (timestamp : Int) (event : String)
  | idOnly (taskId : String)
  | unsharedFull (taskId : String) (updatedTask : Task) (timestamp : Int) (event : String)
deriving Repr, DecidableEq

/-- One `io.to(room).emit(channel, payload)` call: the delivery-group key
(a user id), the socket channel name, and the payload. -/
structure Emission where
  room : String
  channel : String
  payload : Payload
deriving Repr, DecidableEq

/-- emitToUser (socket.ts): `io.to(userId).emit(event, data)` — one
emission to the user's delivery group. -/
def emitToUser (userId : String) (event : String) (data : Payload) : List Emission :=
  [⟨userId, event, data⟩]

/-- emitToUsers (socket.ts): `userIds.forEach(userId => io.to(userId).emit(event, data))`
— one emission per listed user, in list order. -/
def emitToUsers (userIds : List String) (event : String) (data : Payload) : List Emission :=
  userIds.map (fun u => ⟨u, event, data⟩)

/-- sanitizeTaskForEmission (socket.ts): rebuilds the populated owner out
of its `_id`, `email`, `displayName`, `profilePicture` fields (with
`profilePicture || ''`). In the unpopulated representation used here the
owner is already just its id, so the projection is the identity. -/
def sanitizeTaskForEmission (task : Task) : Task :=
  task

/-- emitTaskCreated (socket.ts): emits `task_created` with the full
sanitized task to the owner (when the owner field is truthy) and then to
each listed recipient (when the list is nonempty). -/
def emitTaskCreated (task : Task) (recipients : List String) (now : Int) : List Emission :=
  let eventData := Payload.fullTask (sanitizeTaskForEmission task) now "task_created"
  (if task.owner ≠ "" then emitToUser task.owner "task_created" eventData else []) ++
    (if recipients ≠ [] then emitToUsers recipients "task_created" eventData else [])

/-- emitTaskUpdated (socket.ts): emits `task_updated` with the full
sanitized task to the owner (when the owner field is truthy) and then to
each listed recipient (when the list is nonempty). -/
def emitTaskUpdated (task : Task) (recipients : List String) (now : Int) : List Emission :=
  let eventData := Payload.fullTask (sanitizeTaskForEmission task) now "task_updated"
  (if task.owner ≠ "" then emitToUser task.owner "task_updated" eventData else []) ++
    (if recipients ≠ [] then emitToUsers recipients "task_updated" eventData else [])

/-- emitTaskDeleted (socket.ts): emits `task_deleted` with an
identifier-only payload `{ taskId, timestamp, event }` to the owner
(unconditionally) and then to each listed recipient. -/
def emitTaskDeleted (taskId : String) (ownerId : String) (recipients : List String)
    (now : Int) : List Emission :=
  let eventData := Payload.idWithMeta taskId now "task_deleted"
  emitToUser ownerId "task_deleted" eventData ++
    (if recipients ≠ [] then emitToUsers recipients "task_deleted" eventData else [])

/-- emitTaskShared (socket.ts): emits `task_shared` with the full
sanitized task to each new recipient, then re-emits the same payload to
the owner on the `task_updated` channel. -/
def emitTaskShared (task : Task) (newRecipients : List String) (now : Int) : List Emission :=
  let eventData := Payload.fullTask (sanitizeTaskForEmission task) now "task_shared"
  (if newRecipients ≠ [] then emitToUsers newRecipients "task_shared" eventData else []) ++
    (if task.owner ≠ "" then emitToUser task.owner "task_updated" eventData else [])

/-- emitTaskUnshared (socket.ts): emits `task_unshared` with
`{ taskId, updatedTask, timestamp, event }` to each removed recipient,
then a fresh `task_updated` payload to the owner. (Defined by the
socket module; the unshare route emits its task_unshared inline instead
of calling this helper.) -/
def emitTaskUnshared (task : Task) (removedRecipients : List String) (now : Int) : List Emission :=
  let sanitized := sanitizeTaskForEmission task
  (if removedRecipients ≠ [] then
      emitToUsers removedRecipients "task_unshared"
        (Payload.unsharedFull task.tid sanitized now "task_unshared")
    else []) ++
    (if task.owner ≠ "" then
      emitToUser task.owner "task_updated" (Payload.fullTask sanitized now "task_updated")
    else [])

/-- The server-side state the task routes read and write: the user
collection and the task collection. -/
structure ServerState where
  users : List UserRec
  tasks : List Task
deriving Repr, DecidableEq

/-- The observable outcome of one task route handler: the HTTP status
and message sent, the task collection after the request, and the socket
emissions performed (in order). -/
structure RouteResult where
  status : Nat
  message : String
  tasks : List Task
  emissions : List Emission
deriving Repr, DecidableEq

/-- The body of a POST /api/tasks request, with validated-format fields:
`dueDate` is the parsed epoch-millisecond value of the ISO-8601 string
(ISO parsing itself is outside the model). -/
structure CreateTaskRequest where
  title : String
  description : Option String
  status : Option String
  priority : Option String
  dueDate : Option Int
  tags : Option (List String)
deriving Repr, DecidableEq

/-- The body of a PUT /api/tasks/:id request; every field optional. -/
structure UpdateTaskRequest where
  title : Option String
  description : Option String
  status : Option String
  priority : Option String
  dueDate : Option Int
  tags : Option (List String)
deriving Repr, DecidableEq

/-- JavaScript `email.toLowerCase()`: lower-case every character. Written
as a map over the character list (the library String.toLower is the same
map but is not kernel-reducible). -/
def lowerStr (s : String) : String :=
  ⟨s.data.map Char.toLower⟩

/-- JavaScript `v || dflt` on an optional string: the default is used
when the value is absent or the empty string (falsy). -/
def jsOr (v : Option String) (dflt : String) : String :=
  match v with
  | some s => if s = "" then dflt else s
  | none => dflt

/-- The dueDate custom validator shared by validateTask and
validateTaskUpdate (task routes) and by the task schema: accept no due
date, otherwise require `inputDate >= now + 60000` (reject
`inputDate < bufferTime` where bufferTime is one minute from now). -/
def validDueDate (now : Int) (dueDate : Option Int) : Bool :=
  match dueDate with
  | none => true
  | some d => decide (now + 60000 ≤ d)

/-- The tags custom validator: each tag at most 50 characters. -/
def validTags (tags : Option (List String)) : Bool :=
  match tags with
  | none => true
  | some ts => ts.all (fun t => decide (t.length ≤ 50))

/-- The `isIn` check on status. -/
def validStatusStr (s : Option String) : Bool :=
  match s with
  | none => true
  | some v => ["pending", "in-progress", "completed"].contains v

/-- The `isIn` check on priority. -/
def validPriorityStr (p : Option String) : Bool :=
  match p with
  | none => true
  | some v => ["low", "medium", "high"].contains v

/-- validateTask (task routes): title required and at most 200 chars,
description at most 1000, status and priority in their enums, dueDate at
least one minute in the future, tags at most 50 chars each. -/
def validateTask (now : Int) (r : CreateTaskRequest) : Bool :=
  (r.title != "") && decide (r.title.length ≤ 200) &&
    (match r.description with
      | none => true
      | some d => decide (d.length ≤ 1000)) &&
    validStatusStr r.status && validPriorityStr r.priority &&
    validDueDate now r.dueDate && validTags r.tags

/-- validateTaskUpdate (task routes): like validateTask but the title is
optional (nonempty when present). -/
def validateTaskUpdate (now : Int) (r : UpdateTaskRequest) : Bool :=
  (match r.title with
    | none => true
    | some t => (t != "") && decide (t.length ≤ 200)) &&
    (match r.description with
      | none => true
      | some d => decide (d.length ≤ 1000)) &&
    validStatusStr r.status && validPriorityStr r.priority &&
    validDueDate now r.dueDate && validTags r.tags

/-- POST /api/tasks (task routes): on validation failure respond 400 and
change nothing; otherwise create the task with `status || 'pending'`,
`priority || 'medium'`, `tags || []`, the requester as owner and an
empty sharedWith, append it to the store, and call
`emitTaskCreated(io, task, [])`. `newId` is the ObjectId Mongo assigns. -/
def createTaskRoute (now : Int) (st : ServerState) (userId : String) (newId : String)
    (r : CreateTaskRequest) : RouteResult :=
  if validateTask now r then
    let task : Task :=
      { tid := newId
        title := r.title
        description := r.description
        status := jsOr r.status "pending"
        priority := jsOr r.priority "medium"
        dueDate := r.dueDate
        owner := userId
        sharedWith := []
        tags := r.tags.getD [] }
    { status := 201, message := "Task created successfully"
      tasks := st.tasks ++ [task]
      emissions := emitTaskCreated task [] now }
  else
    { status := 400, message := "Validation errors", tasks := st.tasks, emissions := [] }

/-- PUT /api/tasks/:id (task routes): validate, find the task by id and
owner (404 otherwise), apply the provided fields, and call
`emitTaskUpdated(io, updatedTask, sharedUserIds)` with the updated
sharedWith ids as recipients. -/
def updateTaskRoute (now : Int) (st : ServerState) (requesterId : String) (taskId : String)
    (r : UpdateTaskRequest) : RouteResult :=
  if validateTaskUpdate now r then
    match st.tasks.find? (fun t => t.tid == taskId && t.owner == requesterId) with
    | none =>
      { status := 404, message := "Task not found or access denied"
        tasks := st.tasks, emissions := [] }
    | some task =>
      let updated : Task :=
        { task with
          title := r.title.getD task.title
          description := (match r.description with | some d => some d | none => task.description)
          status := r.status.getD task.status
          priority := r.priority.getD task.priority
          dueDate := (match r.dueDate with | some d => some d | none => task.dueDate)
          tags := r.tags.getD task.tags }
      { status := 200, message := "Task updated successfully"
        tasks := st.tasks.map (fun t => if t.tid == taskId then updated else t)
        emissions := emitTaskUpdated updated updated.sharedWith now }
  else
    { status := 400, message := "Validation errors", tasks := st.tasks, emissions := [] }

/-- DELETE /api/tasks/:id (task routes): find the task by id and owner
(404 otherwise), snapshot its sharedWith ids, delete it, and call
`emitTaskDeleted(io, id, userId.toString(), sharedUserIds)`. -/
def deleteTaskRoute (now : Int) (st : ServerState) (requesterId : String)
    (taskId : String) : RouteResult :=
  match st.tasks.find? (fun t => t.tid == taskId && t.owner == requesterId) with
  | none =>
    { status := 404, message := "Task not found or you are not the owner"
      tasks := st.tasks, emissions := [] }
  | some task =>
    { status := 200, message := "Task deleted successfully"
      tasks := st.tasks.filter (fun t => !(t.tid == taskId))
      emissions := emitTaskDeleted taskId requesterId task.sharedWith now }

/-- POST /api/tasks/:id/share (task routes): after validateShare (email
required; the isEmail format check only gates addresses that could not
resolve to a stored user and is abstracted to the emptiness check), find
the task by id and owner (404), resolve the user by lowercased email
(404), reject 400 when that user is already in sharedWith, reject 400
when that user is the requester, otherwise push the user id onto
sharedWith, save, and call `emitTaskShared(io, task, [userToShare._id])`. -/
def shareTaskRoute (now : Int) (st : ServerState) (requesterId : String) (taskId : String)
    (email : String) : RouteResult :=
  if email = "" then
    { status := 400, message := "Validation errors", tasks := st.tasks, emissions := [] }
  else
    match st.tasks.find? (fun t => t.tid == taskId && t.owner == requesterId) with
    | none =>
      { status := 404, message := "Task not found or you are not the owner"
        tasks := st.tasks, emissions := [] }
    | some task =>
      match st.users.find? (fun u => u.email == lowerStr email) with
      | none =>
        { status := 404, message := "User with this email not found"
          tasks := st.tasks, emissions := [] }
      | some userToShare =>
        if task.sharedWith.contains userToShare.uid then
          { status := 400, message := "Task is already shared with this user"
            tasks := st.tasks, emissions := [] }
        else if userToShare.uid == requesterId then
          { status := 400, message := "Cannot share task with yourself"
            tasks := st.tasks, emissions := [] }
        else
          let updated : Task := { task with sharedWith := task.sharedWith ++ [userToShare.uid] }
          { status := 200, message := "Task shared successfully"
            tasks := st.tasks.map (fun t => if t.tid == taskId then updated else t)
            emissions := emitTaskShared updated [userToShare.uid] now }

/-- DELETE /api/tasks/:taskId/share/:userId (task routes): find the task
by id and owner (404), 404 when the user id is not in sharedWith,
otherwise splice out the first occurrence, save, call
`emitTaskUpdated(io, updatedTask, [owner, ...remaining sharedWith])`,
and finally emit `task_unshared` with `{ taskId }` inline to the removed
user's room. -/
def unshareTaskRoute (now : Int) (st : ServerState) (requesterId : String) (taskId : String)
    (userId : String) : RouteResult :=
  match st.tasks.find? (fun t => t.tid == taskId && t.owner == requesterId) with
  | none =>
    { status := 404, message := "Task not found or access denied"
      tasks := st.tasks, emissions := [] }
  | some task =>
    if task.sharedWith.contains userId then
      let updated : Task := { task with sharedWith := task.sharedWith.erase userId }
      { status := 200, message := "User removed from shared list successfully"
        tasks := st.tasks.map (fun t => if t.tid == taskId then updated else t)
        emissions :=
          emitTaskUpdated updated (updated.owner :: updated.sharedWith) now ++
            [⟨userId, "task_unshared", Payload.idOnly taskId⟩] }
    else
      { status := 404, message := "User not found in shared list"
        tasks := st.tasks, emissions := [] }

/-- Result of `admin.auth().verifyIdToken(token)` as the gate observes
it: success carries the decoded uid and optional email; the failure
constructors are keyed by the Firebase error codes the gate branches on
(`auth/id-token-expired`, `auth/argument-error`, anything else). -/
inductive VerifyResult where
  | ok (uid : String) (email : Option String)
  | errExpired
  | errArgument
  | errOther
deriving Repr, DecidableEq

/-- Outcome of the socket authentication middleware: `rejected msg`
models `next(new Error(msg))`, `admitted u` models attaching the user to
the socket and calling `next()`. -/
inductive GateResult where
  | rejected (message : String)
  | admitted (user : UserRec)
deriving Repr, DecidableEq

/-- JavaScript `String.replace(pat, rep)` with a string pattern:
replaces the first occurrence only. -/
def replaceFirst (s pat rep : String) : String :=
  match s.splitOn pat with
  | [] => s
  | [_] => s
  | x :: rest => x ++ rep ++ String.intercalate pat rest

/-- Token extraction in the gate (socket.ts):
`socket.handshake.auth.token || socket.handshake.headers.authorization?.replace('Bearer ', '')`.
An absent or empty (falsy) auth token falls through to the optional
header with its `Bearer ` prefix stripped. -/
def handshakeToken (authToken : Option String) (headerAuth : Option String) : Option String :=
  match authToken with
  | some t =>
    if t != "" then some t
    else headerAuth.map (fun h => replaceFirst h "Bearer " "")
  | none => headerAuth.map (fun h => replaceFirst h "Bearer " "")

/-- User resolution in the gate: `User.findOne({ firebaseUid })`, then —
only when no match and the decoded token carries a (truthy) email —
`User.findOne({ email })`. -/
def findUserForToken (users : List UserRec) (uid : String)
    (email : Option String) : Option UserRec :=
  match users.find? (fun u => u.firebaseUid == some uid) with
  | some u => some u
  | none =>
    match email with
    | some e => if e != "" then users.find? (fun u => u.email == e) else none
    | none => none

/-- The socket authentication middleware installed by setupSocketIO
(socket.ts): reject with `Authentication token required` when no truthy
token is found, classify verifier failures by Firebase error code,
reject `User not found` when no record matches, otherwise attach the
resolved user and admit. `verify` is the external Identity Verifier. -/
def socketAuthGate (users : List UserRec) (verify : String → VerifyResult)
    (authToken : Option String) (headerAuth : Option String) : GateResult :=
  match handshakeToken authToken headerAuth with
  | none => .rejected "Authentication token required"
  | some token =>
    if token = "" then .rejected "Authentication token required"
    else
      match verify token with
      | .errExpired => .rejected "Authentication token expired"
      | .errArgument => .rejected "Invalid authentication token format"
      | .errOther => .rejected "Invalid authentication token"
      | .ok uid email =>
        match findUserForToken users uid email with
        | none => .rejected "User not found"
        | some u => .admitted u

/-- Fan-out with a failure model: `fails u = true` means
`io.to(u).emit(event, data)` throws for that recipient. JavaScript
`forEach` does not catch exceptions, so a throw aborts the remaining
iterations: the returned emissions are those performed before the first
failing recipient, and the flag records whether a throw escaped. -/
def forEachEmit (fails : String → Bool) (userIds : List String) (event : String)
    (data : Payload) : List Emission × Bool :=
  match userIds with
  | [] => ([], false)
  | u :: rest =>
    if fails u then ([], true)
    else
      let r := forEachEmit fails rest event data
      (⟨u, event, data⟩ :: r.1, r.2)

/-- emitTaskUpdated under the failure model: the whole body runs inside
one `try { ... } catch { log }`, so a throw anywhere inside (the owner
emit or any forEach iteration) ends the emitter; the catch swallows the
exception, so the caller always sees a normal return. The result is the
list of emissions actually performed. -/
def emitTaskUpdatedWithFailures (fails : String → Bool) (task : Task)
    (recipients : List String) (now : Int) : List Emission :=
  let eventData := Payload.fullTask (sanitizeTaskForEmission task) now "task_updated"
  if task.owner ≠ "" then
    if fails task.owner then []
    else
      ⟨task.owner, "task_updated", eventData⟩ ::
        (if recipients ≠ [] then (forEachEmit fails recipients "task_updated" eventData).1
          else [])
  else
    (if recipients ≠ [] then (forEachEmit fails recipients "task_updated" eventData).1
      else [])

/-- A user record as the frontend sees it (frontend types). -/
structure ClientUser where
  uid : String
  email : String
  displayName : String
deriving Repr, DecidableEq

/-- A task as the frontend Task interface holds it: owner and sharedWith
are populated user records, dates are ISO strings. -/
structure ClientTask where
  tid : String
  title : String
  description : Option String
  status : String
  priority : String
  dueDate : Option String
  owner : ClientUser
  sharedWith : List ClientUser
  tags : List String
deriving Repr, DecidableEq

/-- The two task caches DashboardPage keeps in React state: owned tasks
and tasks shared with the user. -/
structure DashboardState where
  tasks : List ClientTask
  sharedTasks : List ClientTask
deriving Repr, DecidableEq

/-- One cache-update block of handleTaskUpdated (DashboardPage.tsx):
when `findIndex(task => task._id === updatedTask._id) !== -1`, replace
every entry with that id by the event payload via `map`; otherwise leave
the cache alone (the handler never inserts). The source repeats this
block once for the owned cache and once for the shared cache. -/
def updateCacheById (cache : List ClientTask) (updatedTask : ClientTask) : List ClientTask :=
  if (cache.findIdx? (fun t => t.tid == updatedTask.tid)).isSome then
    cache.map (fun t => if t.tid == updatedTask.tid then updatedTask else t)
  else cache

/-- handleTaskUpdated (DashboardPage.tsx): apply the replace-by-id merge
to the owned cache and to the shared cache. -/
def handleTaskUpdated (st : DashboardState) (updatedTask : ClientTask) : DashboardState :=
  ⟨updateCacheById st.tasks updatedTask, updateCacheById st.sharedTasks updatedTask⟩

/-- One mutating task operation, as issued by a client: the arguments of
the corresponding route handler. -/
inductive Op where
  | create (userId : String) (newId : String) (r : CreateTaskRequest)
  | share (requesterId : String) (taskId : String) (email : String)
  | unshare (requesterId : String) (taskId : String) (userId : String)
deriving Repr

/-- The task collection after one operation is handled against the fixed
user collection. -/
def stepTasks (users : List UserRec) (tasks : List Task) (op : Int × Op) : List Task :=
  match op with
  | (now, .create userId newId r) => (createTaskRoute now ⟨users, tasks⟩ userId newId r).tasks
  | (now, .share a tid e) => (shareTaskRoute now ⟨users, tasks⟩ a tid e).tasks
  | (now, .unshare a tid u) => (unshareTaskRoute now ⟨users, tasks⟩ a tid u).tasks

/-- The task collection after a sequence of timestamped operations. -/
def runOps (users : List UserRec) (tasks : List Task) : List (Int × Op) → List Task
  | [] => tasks
  | op :: rest => runOps users (stepTasks users tasks op) rest

/-- Replacing every cache entry whose id matches the event payload by
the payload is idempotent as a plain map. -/
lemma replaceById_map_idem (l : List ClientTask) (u : ClientTask) :
    (l.map (fun t => if t.tid == u.tid then u else t)).map
        (fun t => if t.tid == u.tid then u else t) =
      l.map (fun t => if t.tid == u.tid then u else t) := by
  rw [List.map_map]
  apply List.map_congr_left
  intro a _
  by_cases h : a.tid == u.tid
  · simp [Function.comp, h]
  · simp [Function.comp, h]

/-- The replace-by-id map does not change whether some entry matches the
payload id. -/
lemma any_replaceById (l : List ClientTask) (u : ClientTask) :
    (l.map (fun t => if t.tid == u.tid then u else t)).any (fun t => t.tid == u.tid) =
      l.any (fun t => t.tid == u.tid) := by
  induction l with
  | nil => rfl
  | cons a l ih =>
    rw [List.map_cons, List.any_cons, ih, List.any_cons]
    congr 1
    by_cases h : a.tid == u.tid
    · simp [h]
    · simp [h]

/-- One cache-update block is idempotent. -/
lemma updateCacheById_idem (l : List ClientTask) (u : ClientTask) :
    updateCacheById (updateCacheById l u) u = updateCacheById l u := by
  unfold updateCacheById
  by_cases h : (l.findIdx? (fun t => t.tid == u.tid)).isSome = true
  · rw [if_pos h]
    rw [List.findIdx?_isSome] at h
    have h2 : ((l.map (fun t => if t.tid == u.tid then u else t)).findIdx?
        (fun t => t.tid == u.tid)).isSome = true := by
      rw [List.findIdx?_isSome, any_replaceById]
      exact h
    rw [if_pos h2]
    exact replaceById_map_idem l u
  · rw [if_neg h, if_neg h]

/-- C9: applying the same task_updated event twice in succession to the
client task cache yields exactly the same cache state as applying it
once — the replace-by-identifier merge of DashboardPage.handleTaskUpdated
is idempotent for every cache state and every event payload. -/
theorem C9_handleTaskUpdated_idempotent (st : DashboardState) (updatedTask : ClientTask) :
    handleTaskUpdated (handleTaskUpdated st updatedTask) updatedTask =
      handleTaskUpdated st updatedTask := by
  unfold handleTaskUpdated
  simp only [updateCacheById_idem]

/-- C4 fails on the code: in the unshare route the owner appears both as
the dedicated owner target inside emitTaskUpdated and in the explicit
recipient list passed to it, so the owner's room receives `task_updated`
twice. Concrete run: owner `a`, task `t1` shared with `b`, removing `b`
succeeds (status 200) yet two task_updated emissions target room `a`,
where the claim requires exactly one. -/
theorem C4_counterexample :
    (unshareTaskRoute 0
        ⟨[⟨"a", some "fa", "a@x", "A", ""⟩, ⟨"b", some "fb", "b@x", "B", ""⟩],
          [⟨"t1", "Draft", none, "pending", "medium", none, "a", ["b"], []⟩]⟩
        "a" "t1" "b").status = 200 ∧
      ((unshareTaskRoute 0
        ⟨[⟨"a", some "fa", "a@x", "A", ""⟩, ⟨"b", some "fb", "b@x", "B", ""⟩],
          [⟨"t1", "Draft", none, "pending", "medium", none, "a", ["b"], []⟩]⟩
        "a" "t1" "b").emissions.filter
          (fun e => e.room == "a" && e.channel == "task_updated")).length = 2 := by
  decide

/-- Emissions to a fixed channel fanned out over a room list: filtering
them by a room counts that room's occurrences. -/
lemma length_filter_room_map (rooms : List String) (ch : String) (pl : Payload) (u : String) :
    ((rooms.map (fun v => (⟨v, ch, pl⟩ : Emission))).filter
        (fun e => e.room == u && e.channel == ch)).length = rooms.count u := by
  induction rooms with
  | nil => simp
  | cons a l ih =>
    by_cases h : a == u
    · simp [List.filter_cons, h, ih, List.count_cons]
    · simp [List.filter_cons, h, ih, List.count_cons]

/-- Computed form of emitTaskUpdated when the owner id is truthy and the
recipient list is nonempty. -/
lemma emitTaskUpdated_eq (task : Task) (recipients : List String) (now : Int)
    (hown : task.owner ≠ "") (hrec : recipients ≠ []) :
    emitTaskUpdated task recipients now =
      ⟨task.owner, "task_updated", Payload.fullTask task now "task_updated"⟩ ::
        recipients.map
          (fun v => ⟨v, "task_updated", Payload.fullTask task now "task_updated"⟩) := by
  simp only [emitTaskUpdated, emitToUser, emitToUsers, sanitizeTaskForEmission]
  rw [if_pos hown, if_pos hrec]
  rfl

/-- Computed form of the unshare route on the success path. -/
lemma unshareTaskRoute_success (now : Int) (st : ServerState)
    (requesterId taskId removedId : String) (task : Task)
    (hfind : st.tasks.find? (fun t => t.tid == taskId && t.owner == requesterId) = some task)
    (hmem : task.sharedWith.contains removedId = true) :
    unshareTaskRoute now st requesterId taskId removedId =
      { status := 200, message := "User removed from shared list successfully"
        tasks := st.tasks.map (fun t =>
          if t.tid == taskId then { task with sharedWith := task.sharedWith.erase removedId }
          else t)
        emissions :=
          emitTaskUpdated { task with sharedWith := task.sharedWith.erase removedId }
              (task.owner :: task.sharedWith.erase removedId) now ++
            [⟨removedId, "task_unshared", Payload.idOnly taskId⟩] } := by
  simp only [unshareTaskRoute, hfind]
  rw [if_pos hmem]

/-- Filtering the unshare route's emission list by a room on the
task_updated channel counts the room among the dedicated owner target
and the explicit recipient list; the trailing task_unshared emission
never matches. -/
lemma unshare_emissions_filter_count (owner : String) (rem : List String)
    (removedId taskId : String) (pl : Payload) (u : String) :
    (((⟨owner, "task_updated", pl⟩ ::
          (owner :: rem).map (fun v => ⟨v, "task_updated", pl⟩)) ++
        [⟨removedId, "task_unshared", Payload.idOnly taskId⟩] : List Emission).filter
        (fun e => e.room == u && e.channel == "task_updated")).length =
      (if owner == u then 1 else 0) + (owner :: rem).count u := by
  rw [List.filter_append, List.length_append, List.filter_cons]
  by_cases h : owner == u
  · simp only [h, length_filter_room_map, List.count_cons, if_true]
    simp [length_filter_room_map, List.count_cons, h]
    omega
  · simp [h, length_filter_room_map, List.count_cons]

/-- C4 amended: on a successful unshare of user B from task T, B
receives a `task_unshared` event carrying only the task identifier, and
a `task_updated` event whose payload carries the refreshed sharedWith
list is pushed to each remaining shared user's group exactly once — but
to the owner's group exactly twice (once as the dedicated owner target
inside the updated-task emitter, once through the explicit recipient
list that also contains the owner). -/
theorem C4_amended_unshare_fanout (now : Int) (st : ServerState)
    (requesterId taskId removedId : String) (task : Task)
    (hfind : st.tasks.find? (fun t => t.tid == taskId && t.owner == requesterId) = some task)
    (hmem : task.sharedWith.contains removedId = true)
    (hown : task.owner ≠ "")
    (hnodup : task.sharedWith.Nodup)
    (hownout : task.owner ∉ task.sharedWith) :
    ⟨removedId, "task_unshared", Payload.idOnly taskId⟩ ∈
        (unshareTaskRoute now st requesterId taskId removedId).emissions ∧
      ((unshareTaskRoute now st requesterId taskId removedId).emissions.filter
          (fun e => e.room == task.owner && e.channel == "task_updated")).length = 2 ∧
      (∀ u ∈ task.sharedWith.erase removedId,
        ((unshareTaskRoute now st requesterId taskId removedId).emissions.filter
            (fun e => e.room == u && e.channel == "task_updated")).length = 1) ∧
      (∀ e ∈ (unshareTaskRoute now st requesterId taskId removedId).emissions,
        e.channel = "task_updated" →
          e.payload = Payload.fullTask
            { task with sharedWith := task.sharedWith.erase removedId } now "task_updated") := by
  have hroute := unshareTaskRoute_success now st requesterId taskId removedId task hfind hmem
  have hemit := emitTaskUpdated_eq { task with sharedWith := task.sharedWith.erase removedId }
    (task.owner :: task.sharedWith.erase removedId) now hown (List.cons_ne_nil _ _)
  have hnotmem : task.owner ∉ task.sharedWith.erase removedId := fun h =>
    hownout (List.erase_subset removedId task.sharedWith h)
  refine ⟨?_, ?_, ?_, ?_⟩
  · rw [hroute]
    simp
  · rw [hroute]
    simp only [hemit]
    rw [unshare_emissions_filter_count]
    simp [List.count_cons, List.count_eq_zero.mpr hnotmem]
  · intro u hu
    have hune : u ≠ task.owner := fun heq =>
      hownout (heq ▸ List.erase_subset removedId task.sharedWith hu)
    rw [hroute]
    simp only [hemit]
    rw [unshare_emissions_filter_count]
    have h1 : (task.owner == u) = false := beq_eq_false_iff_ne.mpr (Ne.symm hune)
    have h2 : List.count u (task.sharedWith.erase removedId) = 1 :=
      List.count_eq_one_of_mem (hnodup.erase removedId) hu
    simp [List.count_cons, h1, h2]
  · intro e he hch
    rw [hroute] at he
    simp only [hemit, List.mem_append, List.mem_cons, List.mem_map] at he
    rcases he with (rfl | ⟨v, _, rfl⟩) | rfl | h
    · rfl
    · rfl
    · simp at hch
    · exact absurd h (List.not_mem_nil e)

/-- Concrete application of the amended C4 theorem: owner `a`, task `t1`
shared with `b` and `c`, removing `b`. -/
theorem C4_amended_witness :
    ⟨"b", "task_unshared", Payload.idOnly "t1"⟩ ∈
        (unshareTaskRoute 0
          ⟨[⟨"a", some "fa", "a@x", "A", ""⟩, ⟨"b", some "fb", "b@x", "B", ""⟩,
              ⟨"c", some "fc", "c@x", "C", ""⟩],
            [⟨"t1", "Draft", none, "pending", "medium", none, "a", ["b", "c"], []⟩]⟩
          "a" "t1" "b").emissions ∧
      ((unshareTaskRoute 0
          ⟨[⟨"a", some "fa", "a@x", "A", ""⟩, ⟨"b", some "fb", "b@x", "B", ""⟩,
              ⟨"c", some "fc", "c@x", "C", ""⟩],
            [⟨"t1", "Draft", none, "pending", "medium", none, "a", ["b", "c"], []⟩]⟩
          "a" "t1" "b").emissions.filter
          (fun e => e.room == "a" && e.channel == "task_updated")).length = 2 ∧
      (∀ u ∈ (["b", "c"] : List String).erase "b",
        ((unshareTaskRoute 0
            ⟨[⟨"a", some "fa", "a@x", "A", ""⟩, ⟨"b", some "fb", "b@x", "B", ""⟩,
                ⟨"c", some "fc", "c@x", "C", ""⟩],
              [⟨"t1", "Draft", none, "pending", "medium", none, "a", ["b", "c"], []⟩]⟩
            "a" "t1" "b").emissions.filter
            (fun e => e.room == u && e.channel == "task_updated")).length = 1) ∧
      (∀ e ∈ (unshareTaskRoute 0
          ⟨[⟨"a", some "fa", "a@x", "A", ""⟩, ⟨"b", some "fb", "b@x", "B", ""⟩,
              ⟨"c", some "fc", "c@x", "C", ""⟩],
            [⟨"t1", "Draft", none, "pending", "medium", none, "a", ["b", "c"], []⟩]⟩
          "a" "t1" "b").emissions,
        e.channel = "task_updated" →
          e.payload = Payload.fullTask
            { tid := "t1", title := "Draft", description := none, status := "pending",
              priority := "medium", dueDate := none, owner := "a",
              sharedWith := (["b", "c"] : List String).erase "b", tags := [] }
            0 "task_updated") :=
  C4_amended_unshare_fanout 0
    ⟨[⟨"a", some "fa", "a@x", "A", ""⟩, ⟨"b", some "fb", "b@x", "B", ""⟩,
        ⟨"c", some "fc", "c@x", "C", ""⟩],
      [⟨"t1", "Draft", none, "pending", "medium", none, "a", ["b", "c"], []⟩]⟩
    "a" "t1" "b" ⟨"t1", "Draft", none, "pending", "medium", none, "a", ["b", "c"], []⟩
    (by decide) (by decide) (by decide) (by decide) (by decide)

/-- C5 fails on the code: the try/catch sits around the whole fan-out,
not around each recipient, and `forEach` stops at a thrown exception.
Concrete run: recipients `[b, c]`, the push to `b` (index 1) throws —
`c`, which comes after the failing index, is never pushed to: only the
dedicated owner emission survives. -/
theorem C5_counterexample :
    emitTaskUpdatedWithFailures (fun u => u == "b")
        ⟨"t1", "Draft", none, "pending", "medium", none, "a", ["b", "c"], []⟩
        ["b", "c"] 0 =
      [⟨"a", "task_updated",
        Payload.fullTask ⟨"t1", "Draft", none, "pending", "medium", none, "a", ["b", "c"], []⟩
          0 "task_updated"⟩] := by
  decide

/-- The emissions a failing forEach fan-out performs are exactly the
longest failure-free prefix of the recipient list. -/
lemma forEachEmit_fst (fails : String → Bool) (l : List String) (ev : String) (d : Payload) :
    (forEachEmit fails l ev d).1 =
      (l.takeWhile (fun u => !(fails u))).map (fun u => (⟨u, ev, d⟩ : Emission)) := by
  induction l with
  | nil => rfl
  | cons a l ih =>
    by_cases h : fails a
    · simp [forEachEmit, h, List.takeWhile_cons]
    · simp [forEachEmit, h, List.takeWhile_cons, ih]

/-- C5 amended: a failure pushing to one recipient is caught at the
fan-out level, not per recipient: within one emitter call the pushes
performed are the owner push followed by exactly the recipients before
the first failing one — recipients after the failing index are skipped,
and the exception does not escape the emitter. -/
theorem C5_amended_fanout_abort (fails : String → Bool) (task : Task)
    (recipients : List String) (now : Int)
    (hown : task.owner ≠ "") (hof : fails task.owner = false) :
    emitTaskUpdatedWithFailures fails task recipients now =
      ⟨task.owner, "task_updated", Payload.fullTask task now "task_updated"⟩ ::
        (recipients.takeWhile (fun u => !(fails u))).map
          (fun u => ⟨u, "task_updated", Payload.fullTask task now "task_updated"⟩) := by
  simp only [emitTaskUpdatedWithFailures, sanitizeTaskForEmission]
  rw [if_pos hown, if_neg (by simp [hof])]
  by_cases hrec : recipients = []
  · subst hrec
    simp
  · rw [if_pos hrec, forEachEmit_fst]

/-- Concrete application of the amended C5 theorem: pushing to `b`
throws, so the emitter returns the owner push plus the empty failure-free
prefix of `[b, c]`. -/
theorem C5_amended_witness :
    emitTaskUpdatedWithFailures (fun u => u == "b")
        ⟨"t2", "Plan", none, "pending", "low", none, "a", ["b", "c"], []⟩ ["b", "c"] 0 =
      ⟨"a", "task_updated",
          Payload.fullTask ⟨"t2", "Plan", none, "pending", "low", none, "a", ["b", "c"], []⟩
            0 "task_updated"⟩ ::
        ((["b", "c"] : List String).takeWhile (fun u => !((fun v => v == "b") u))).map
          (fun u => ⟨u, "task_updated",
            Payload.fullTask ⟨"t2", "Plan", none, "pending", "low", none, "a", ["b", "c"], []⟩
              0 "task_updated"⟩) :=
  C5_amended_fanout_abort (fun u => u == "b")
    ⟨"t2", "Plan", none, "pending", "low", none, "a", ["b", "c"], []⟩ ["b", "c"] 0
    (by decide) (by decide)

/-- A hit of the find-by-id-and-owner query gives membership and the two
field equations of its predicate. -/
lemma find?_task_props {tasks : List Task} {taskId requesterId : String} {task : Task}
    (h : tasks.find? (fun t => t.tid == taskId && t.owner == requesterId) = some task) :
    task ∈ tasks ∧ task.tid = taskId ∧ task.owner = requesterId := by
  have hm := List.mem_of_find?_eq_some h
  have hp := List.find?_some h
  rw [Bool.and_eq_true, beq_iff_eq, beq_iff_eq] at hp
  exact ⟨hm, hp.1, hp.2⟩

/-- C2: on every deletion of a task, every member of the owner plus the
sharedWith set as it existed immediately before the deletion receives a
task_deleted event, and every emission of the route carries only the
task identifier with timestamp and event tag — no task body fields. -/
theorem C2_delete_fanout (now : Int) (st : ServerState) (requesterId taskId : String)
    (task : Task)
    (hfind : st.tasks.find? (fun t => t.tid == taskId && t.owner == requesterId) = some task) :
    (deleteTaskRoute now st requesterId taskId).status = 200 ∧
      task.owner = requesterId ∧
      (∀ u ∈ task.owner :: task.sharedWith,
        ⟨u, "task_deleted", Payload.idWithMeta taskId now "task_deleted"⟩ ∈
          (deleteTaskRoute now st requesterId taskId).emissions) ∧
      (∀ e ∈ (deleteTaskRoute now st requesterId taskId).emissions,
        e.channel = "task_deleted" ∧
          e.payload = Payload.idWithMeta taskId now "task_deleted") := by
  obtain ⟨-, -, howner⟩ := find?_task_props hfind
  have hroute : (deleteTaskRoute now st requesterId taskId).emissions =
      emitTaskDeleted taskId requesterId task.sharedWith now := by
    simp only [deleteTaskRoute, hfind]
  refine ⟨by simp only [deleteTaskRoute, hfind], howner, ?_, ?_⟩
  · intro u hu
    rw [hroute]
    rcases List.mem_cons.mp hu with rfl | hsh
    · rw [howner]
      simp [emitTaskDeleted, emitToUser]
    · have hne : task.sharedWith ≠ [] := List.ne_nil_of_mem hsh
      simp only [emitTaskDeleted, emitToUser, emitToUsers, if_pos hne, List.mem_append,
        List.mem_map]
      exact Or.inr ⟨u, hsh, rfl⟩
  · intro e he
    rw [hroute] at he
    by_cases hne : task.sharedWith = []
    · simp [emitTaskDeleted, emitToUser, hne] at he
      subst he
      exact ⟨rfl, rfl⟩
    · simp only [emitTaskDeleted, emitToUser, emitToUsers, if_pos hne, List.mem_append,
        List.mem_singleton, List.mem_map] at he
      rcases he with rfl | ⟨v, _, rfl⟩
      · exact ⟨rfl, rfl⟩
      · exact ⟨rfl, rfl⟩

/-- Concrete application of the C2 theorem: owner `a` deletes `t1`,
which was shared with `b`. -/
theorem C2_witness :
    (deleteTaskRoute 0
        ⟨[⟨"a", some "fa", "a@x", "A", ""⟩, ⟨"b", some "fb", "b@x", "B", ""⟩],
          [⟨"t1", "Draft", none, "pending", "medium", none, "a", ["b"], []⟩]⟩
        "a" "t1").status = 200 ∧
      ("a" : String) = "a" ∧
      (∀ u ∈ ("a" :: ["b"] : List String),
        ⟨u, "task_deleted", Payload.idWithMeta "t1" 0 "task_deleted"⟩ ∈
          (deleteTaskRoute 0
            ⟨[⟨"a", some "fa", "a@x", "A", ""⟩, ⟨"b", some "fb", "b@x", "B", ""⟩],
              [⟨"t1", "Draft", none, "pending", "medium", none, "a", ["b"], []⟩]⟩
            "a" "t1").emissions) ∧
      (∀ e ∈ (deleteTaskRoute 0
          ⟨[⟨"a", some "fa", "a@x", "A", ""⟩, ⟨"b", some "fb", "b@x", "B", ""⟩],
            [⟨"t1", "Draft", none, "pending", "medium", none, "a", ["b"], []⟩]⟩
          "a" "t1").emissions,
        e.channel = "task_deleted" ∧ e.payload = Payload.idWithMeta "t1" 0 "task_deleted") :=
  C2_delete_fanout 0
    ⟨[⟨"a", some "fa", "a@x", "A", ""⟩, ⟨"b", some "fb", "b@x", "B", ""⟩],
      [⟨"t1", "Draft", none, "pending", "medium", none, "a", ["b"], []⟩]⟩
    "a" "t1" ⟨"t1", "Draft", none, "pending", "medium", none, "a", ["b"], []⟩ (by decide)

/-- C3: every successful creation commit pushes exactly one task_created
event, carrying the full task representation, and it goes to the owner's
delivery group only — the emitted recipient list is empty because
sharedWith is empty at creation. -/
theorem C3_create_single_emission (now : Int) (st : ServerState) (userId newId : String)
    (r : CreateTaskRequest) (hval : validateTask now r = true) (huid : userId ≠ "") :
    (createTaskRoute now st userId newId r).status = 201 ∧
      ∃ t : Task,
        (createTaskRoute now st userId newId r).emissions =
            [⟨userId, "task_created", Payload.fullTask t now "task_created"⟩] ∧
          t.owner = userId ∧ t.sharedWith = [] := by
  have hroute : createTaskRoute now st userId newId r =
      { status := 201, message := "Task created successfully"
        tasks := st.tasks ++
          [{ tid := newId, title := r.title, description := r.description,
             status := jsOr r.status "pending", priority := jsOr r.priority "medium",
             dueDate := r.dueDate, owner := userId, sharedWith := [],
             tags := r.tags.getD [] }]
        emissions := emitTaskCreated
          { tid := newId, title := r.title, description := r.description,
            status := jsOr r.status "pending", priority := jsOr r.priority "medium",
            dueDate := r.dueDate, owner := userId, sharedWith := [],
            tags := r.tags.getD [] } [] now } := by
    unfold createTaskRoute
    rw [if_pos hval]
  rw [hroute]
  refine ⟨rfl,
    ⟨{ tid := newId, title := r.title, description := r.description,
       status := jsOr r.status "pending", priority := jsOr r.priority "medium",
       dueDate := r.dueDate, owner := userId, sharedWith := [],
       tags := r.tags.getD [] }, ?_, rfl, rfl⟩⟩
  simp only [emitTaskCreated, emitToUser, emitToUsers, sanitizeTaskForEmission]
  rw [if_pos huid]
  simp

/-- Concrete application of the C3 theorem: user `a` creates a task. -/
theorem C3_witness :
    (createTaskRoute 5
        ⟨[⟨"a", some "fa", "a@x", "A", ""⟩], []⟩
        "a" "t9" ⟨"T", none, none, none, none, none⟩).status = 201 ∧
      ∃ t : Task,
        (createTaskRoute 5
            ⟨[⟨"a", some "fa", "a@x", "A", ""⟩], []⟩
            "a" "t9" ⟨"T", none, none, none, none, none⟩).emissions =
            [⟨"a", "task_created", Payload.fullTask t 5 "task_created"⟩] ∧
          t.owner = "a" ∧ t.sharedWith = [] :=
  C3_create_single_emission 5 ⟨[⟨"a", some "fa", "a@x", "A", ""⟩], []⟩ "a" "t9"
    ⟨"T", none, none, none, none, none⟩ (by decide) (by decide)

/-- Computed form of emitTaskShared for one new recipient with a truthy
owner. -/
lemma emitTaskShared_eq (task : Task) (b : String) (now : Int) (hown : task.owner ≠ "") :
    emitTaskShared task [b] now =
      [⟨b, "task_shared", Payload.fullTask task now "task_shared"⟩,
        ⟨task.owner, "task_updated", Payload.fullTask task now "task_shared"⟩] := by
  simp only [emitTaskShared, emitToUser, emitToUsers, sanitizeTaskForEmission]
  rw [if_pos (List.cons_ne_nil _ _), if_pos hown]
  rfl

/-- Computed form of the share route on the success path. -/
lemma shareTaskRoute_success (now : Int) (st : ServerState)
    (requesterId taskId email : String) (task : Task) (userB : UserRec)
    (hemail : email ≠ "")
    (hfind : st.tasks.find? (fun t => t.tid == taskId && t.owner == requesterId) = some task)
    (huser : st.users.find? (fun u => u.email == lowerStr email) = some userB)
    (hnotshared : task.sharedWith.contains userB.uid = false)
    (hnotself : userB.uid ≠ requesterId) :
    shareTaskRoute now st requesterId taskId email =
      { status := 200, message := "Task shared successfully"
        tasks := st.tasks.map (fun t =>
          if t.tid == taskId then { task with sharedWith := task.sharedWith ++ [userB.uid] }
          else t)
        emissions := emitTaskShared
          { task with sharedWith := task.sharedWith ++ [userB.uid] } [userB.uid] now } := by
  simp only [shareTaskRoute, hfind, huser]
  rw [if_neg hemail, if_neg (by rw [hnotshared]; exact Bool.false_ne_true),
    if_neg (by simp [hnotself])]

/-- C1: on every successful share adding user B to task T, the
task_shared event (with the full task body) goes to B's delivery group
and to no other group; the owner receives a follow-up event on the
task_updated channel whose payload carries the new shared-user list; and
every emission of the route targets a room inside the owner plus the
post-share sharedWith set, so no outside user receives any event
referencing T. -/
theorem C1_share_event_routing (now : Int) (st : ServerState)
    (requesterId taskId email : String) (task : Task) (userB : UserRec)
    (hemail : email ≠ "")
    (hfind : st.tasks.find? (fun t => t.tid == taskId && t.owner == requesterId) = some task)
    (huser : st.users.find? (fun u => u.email == lowerStr email) = some userB)
    (hnotshared : task.sharedWith.contains userB.uid = false)
    (hnotself : userB.uid ≠ requesterId)
    (hown : task.owner ≠ "") :
    ((shareTaskRoute now st requesterId taskId email).emissions.filter
        (fun e => e.channel == "task_shared")) =
        [⟨userB.uid, "task_shared",
          Payload.fullTask { task with sharedWith := task.sharedWith ++ [userB.uid] } now
            "task_shared"⟩] ∧
      ⟨task.owner, "task_updated",
          Payload.fullTask { task with sharedWith := task.sharedWith ++ [userB.uid] } now
            "task_shared"⟩ ∈
        (shareTaskRoute now st requesterId taskId email).emissions ∧
      (∀ e ∈ (shareTaskRoute now st requesterId taskId email).emissions,
        e.room = task.owner ∨ e.room ∈ task.sharedWith ++ [userB.uid]) := by
  have hroute := shareTaskRoute_success now st requesterId taskId email task userB
    hemail hfind huser hnotshared hnotself
  have hemit := emitTaskShared_eq { task with sharedWith := task.sharedWith ++ [userB.uid] }
    userB.uid now hown
  refine ⟨?_, ?_, ?_⟩
  · rw [hroute]
    simp only [hemit]
    rfl
  · rw [hroute]
    simp only [hemit]
    simp
  · intro e he
    rw [hroute] at he
    simp only [hemit, List.mem_cons, List.mem_singleton] at he
    rcases he with rfl | rfl | h
    · exact Or.inr (List.mem_append_right _ (List.mem_singleton.mpr rfl))
    · exact Or.inl rfl
    · exact absurd h (List.not_mem_nil e)

/-- Concrete application of the C1 theorem: owner `a` shares `t1` with
`b` by email. -/
theorem C1_witness :
    ((shareTaskRoute 0
        ⟨[⟨"a", some "fa", "a@x", "A", ""⟩, ⟨"b", some "fb", "b@x", "B", ""⟩],
          [⟨"t1", "Draft", none, "pending", "medium", none, "a", [], []⟩]⟩
        "a" "t1" "b@x").emissions.filter (fun e => e.channel == "task_shared")) =
        [⟨"b", "task_shared",
          Payload.fullTask
            { tid := "t1", title := "Draft", description := none, status := "pending",
              priority := "medium", dueDate := none, owner := "a",
              sharedWith := ([] : List String) ++ ["b"], tags := [] } 0 "task_shared"⟩] ∧
      ⟨"a", "task_updated",
          Payload.fullTask
            { tid := "t1", title := "Draft", description := none, status := "pending",
              priority := "medium", dueDate := none, owner := "a",
              sharedWith := ([] : List String) ++ ["b"], tags := [] } 0 "task_shared"⟩ ∈
        (shareTaskRoute 0
          ⟨[⟨"a", some "fa", "a@x", "A", ""⟩, ⟨"b", some "fb", "b@x", "B", ""⟩],
            [⟨"t1", "Draft", none, "pending", "medium", none, "a", [], []⟩]⟩
          "a" "t1" "b@x").emissions ∧
      (∀ e ∈ (shareTaskRoute 0
          ⟨[⟨"a", some "fa", "a@x", "A", ""⟩, ⟨"b", some "fb", "b@x", "B", ""⟩],
            [⟨"t1", "Draft", none, "pending", "medium", none, "a", [], []⟩]⟩
          "a" "t1" "b@x").emissions,
        e.room = "a" ∨ e.room ∈ ([] : List String) ++ ["b"]) :=
  C1_share_event_routing 0
    ⟨[⟨"a", some "fa", "a@x", "A", ""⟩, ⟨"b", some "fb", "b@x", "B", ""⟩],
      [⟨"t1", "Draft", none, "pending", "medium", none, "a", [], []⟩]⟩
    "a" "t1" "b@x" ⟨"t1", "Draft", none, "pending", "medium", none, "a", [], []⟩
    ⟨"b", some "fb", "b@x", "B", ""⟩
    (by decide) (by decide) (by decide) (by decide) (by decide) (by decide)

/-- C6: the connection gate classifies every connection attempt into the
five distinct outcomes: missing (falsy) credential rejects with the
token-required error; a verifier-reported expiry rejects with the
expired error; any other verification failure rejects with one of the
two invalid-token errors; a verified credential matching no user record
(by firebaseUid, falling back to a truthy decoded email) rejects with
the user-not-found error; and a verified credential with a matching
record admits the connection carrying that resolved user. The four
rejection messages are pairwise distinct. -/
theorem C6_gate_classification (users : List UserRec) (verify : String → VerifyResult)
    (authToken headerAuth : Option String) :
    ((handshakeToken authToken headerAuth = none ∨
        handshakeToken authToken headerAuth = some "") →
      socketAuthGate users verify authToken headerAuth =
        .rejected "Authentication token required") ∧
      (∀ t, handshakeToken authToken headerAuth = some t → t ≠ "" →
        (verify t = .errExpired →
          socketAuthGate users verify authToken headerAuth =
            .rejected "Authentication token expired") ∧
        (verify t = .errArgument →
          socketAuthGate users verify authToken headerAuth =
            .rejected "Invalid authentication token format") ∧
        (verify t = .errOther →
          socketAuthGate users verify authToken headerAuth =
            .rejected "Invalid authentication token") ∧
        (∀ uid email, verify t = .ok uid email →
          (findUserForToken users uid email = none →
            socketAuthGate users verify authToken headerAuth = .rejected "User not found") ∧
          (∀ u, findUserForToken users uid email = some u →
            socketAuthGate users verify authToken headerAuth = .admitted u))) ∧
      (("Authentication token required" : String) ≠ "Authentication token expired" ∧
        ("Authentication token required" : String) ≠ "Invalid authentication token" ∧
        ("Authentication token required" : String) ≠ "User not found" ∧
        ("Authentication token expired" : String) ≠ "Invalid authentication token" ∧
        ("Authentication token expired" : String) ≠ "User not found" ∧
        ("Invalid authentication token" : String) ≠ "User not found") := by
  refine ⟨?_, ?_, by decide⟩
  · intro h
    unfold socketAuthGate
    rcases h with h | h <;> rw [h]
    simp
  · intro t ht hne
    have hbase : socketAuthGate users verify authToken headerAuth =
        match verify t with
        | .errExpired => .rejected "Authentication token expired"
        | .errArgument => .rejected "Invalid authentication token format"
        | .errOther => .rejected "Invalid authentication token"
        | .ok uid email =>
          match findUserForToken users uid email with
          | none => .rejected "User not found"
          | some u => .admitted u := by
      simp only [socketAuthGate, ht]
      rw [if_neg hne]
    refine ⟨?_, ?_, ?_, ?_⟩
    · intro hv
      rw [hbase]
      simp only [hv]
    · intro hv
      rw [hbase]
      simp only [hv]
    · intro hv
      rw [hbase]
      simp only [hv]
    · intro uid email hv
      constructor
      · intro hf
        rw [hbase]
        simp only [hv, hf]
      · intro u hf
        rw [hbase]
        simp only [hv, hf]

/-- Concrete applications of the C6 gate theorem: an expired credential,
a missing credential, and a verified credential resolved through the
email fallback. -/
theorem C6_witness :
    socketAuthGate [⟨"a", some "fa", "a@x", "A", ""⟩]
        (fun _ => .errExpired) (some "tok") none =
      .rejected "Authentication token expired" ∧
      socketAuthGate [⟨"a", some "fa", "a@x", "A", ""⟩]
          (fun _ => .errExpired) none none =
        .rejected "Authentication token required" ∧
      socketAuthGate [⟨"a", some "fa", "a@x", "A", ""⟩]
          (fun _ => .ok "zz" (some "a@x")) (some "tok") none =
        .admitted ⟨"a", some "fa", "a@x", "A", ""⟩ :=
  ⟨((C6_gate_classification [⟨"a", some "fa", "a@x", "A", ""⟩] (fun _ => .errExpired)
      (some "tok") none).2.1 "tok" rfl (by decide)).1 rfl,
    (C6_gate_classification [⟨"a", some "fa", "a@x", "A", ""⟩] (fun _ => .errExpired)
      none none).1 (Or.inl rfl),
    ((((C6_gate_classification [⟨"a", some "fa", "a@x", "A", ""⟩]
        (fun _ => .ok "zz" (some "a@x")) (some "tok") none).2.1 "tok" rfl
        (by decide)).2.2.2 "zz" (some "a@x") rfl).2 ⟨"a", some "fa", "a@x", "A", ""⟩
      (by decide))⟩

/-- C8: a create or update request whose due timestamp is earlier than
one minute past the validation instant is rejected with a validation
error, leaving the task collection unchanged and emitting nothing; and a
request accepted by either route has its due timestamp, when set, at or
beyond the now + 60 seconds floor (hence strictly in the future). -/
theorem C8_dueDate_floor (now : Int) (st : ServerState) (userId newId taskId : String)
    (rc : CreateTaskRequest) (ru : UpdateTaskRequest) (d : Int) :
    (rc.dueDate = some d → d < now + 60000 →
      (createTaskRoute now st userId newId rc).status = 400 ∧
        (createTaskRoute now st userId newId rc).tasks = st.tasks ∧
        (createTaskRoute now st userId newId rc).emissions = []) ∧
      (ru.dueDate = some d → d < now + 60000 →
        (updateTaskRoute now st userId taskId ru).status = 400 ∧
          (updateTaskRoute now st userId taskId ru).tasks = st.tasks ∧
          (updateTaskRoute now st userId taskId ru).emissions = []) ∧
      ((createTaskRoute now st userId newId rc).status = 201 → rc.dueDate = some d →
        now + 60000 ≤ d) ∧
      ((updateTaskRoute now st userId taskId ru).status = 200 → ru.dueDate = some d →
        now + 60000 ≤ d) := by
  have hbadc : rc.dueDate = some d → d < now + 60000 → validateTask now rc = false := by
    intro hd hlt
    unfold validateTask validDueDate
    rw [hd]
    simp [not_le.mpr hlt]
  have hbadu : ru.dueDate = some d → d < now + 60000 → validateTaskUpdate now ru = false := by
    intro hd hlt
    unfold validateTaskUpdate validDueDate
    rw [hd]
    simp [not_le.mpr hlt]
  have hokc : validateTask now rc = true → rc.dueDate = some d → now + 60000 ≤ d := by
    intro hv hd
    unfold validateTask at hv
    simp only [Bool.and_eq_true] at hv
    have := hv.1.2
    unfold validDueDate at this
    rw [hd] at this
    exact of_decide_eq_true this
  have hoku : validateTaskUpdate now ru = true → ru.dueDate = some d → now + 60000 ≤ d := by
    intro hv hd
    unfold validateTaskUpdate at hv
    simp only [Bool.and_eq_true] at hv
    have := hv.1.2
    unfold validDueDate at this
    rw [hd] at this
    exact of_decide_eq_true this
  refine ⟨?_, ?_, ?_, ?_⟩
  · intro hd hlt
    unfold createTaskRoute
    rw [if_neg (by rw [hbadc hd hlt]; exact Bool.false_ne_true)]
    exact ⟨rfl, rfl, rfl⟩
  · intro hd hlt
    unfold updateTaskRoute
    rw [if_neg (by rw [hbadu hd hlt]; exact Bool.false_ne_true)]
    exact ⟨rfl, rfl, rfl⟩
  · intro hst hd
    by_cases hv : validateTask now rc = true
    · exact hokc hv hd
    · exfalso
      unfold createTaskRoute at hst
      rw [if_neg hv] at hst
      simp at hst
  · intro hst hd
    by_cases hv : validateTaskUpdate now ru = true
    · exact hoku hv hd
    · exfalso
      unfold updateTaskRoute at hst
      rw [if_neg hv] at hst
      simp at hst

/-- Concrete application of the C8 theorem: at validation instant 0, a
due timestamp of 59999 ms (one millisecond under the floor) is rejected
on both routes, and an accepted create at the exact 60000 ms floor
satisfies the bound. -/
theorem C8_witness :
    ((createTaskRoute 0 ⟨[], []⟩ "a" "t9" ⟨"T", none, none, none, some 59999, none⟩).status =
        400 ∧
      (createTaskRoute 0 ⟨[], []⟩ "a" "t9" ⟨"T", none, none, none, some 59999, none⟩).tasks =
        [] ∧
      (createTaskRoute 0 ⟨[], []⟩ "a" "t9"
          ⟨"T", none, none, none, some 59999, none⟩).emissions = []) ∧
      ((updateTaskRoute 0 ⟨[], []⟩ "a" "t1"
          ⟨none, none, none, none, some 59999, none⟩).status = 400) ∧
      ((createTaskRoute 0 ⟨[], []⟩ "a" "t9" ⟨"T", none, none, none, some 60000, none⟩).status =
          201 →
        (0 : Int) + 60000 ≤ 60000) :=
  ⟨(C8_dueDate_floor 0 ⟨[], []⟩ "a" "t9" "t1" ⟨"T", none, none, none, some 59999, none⟩
      ⟨none, none, none, none, some 59999, none⟩ 59999).1 rfl (by decide),
    ((C8_dueDate_floor 0 ⟨[], []⟩ "a" "t9" "t1" ⟨"T", none, none, none, some 59999, none⟩
      ⟨none, none, none, none, some 59999, none⟩ 59999).2.1 rfl (by decide)).1,
    fun hst => (C8_dueDate_floor 0 ⟨[], []⟩ "a" "t9" "t1"
      ⟨"T", none, none, none, some 60000, none⟩
      ⟨none, none, none, none, some 59999, none⟩ 60000).2.2.1 hst rfl⟩

/-- A contains-miss is a non-membership fact. -/
lemma not_mem_of_contains_eq_false {l : List String} {a : String}
    (h : l.contains a = false) : a ∉ l := by
  intro hm
  have hc : l.contains a = true := List.elem_eq_true_of_mem hm
  rw [h] at hc
  exact Bool.false_ne_true hc

/-- Every task in the collection after a create request is either an old
task or the freshly created one, whose sharedWith is empty. -/
lemma mem_createTaskRoute_tasks {now : Int} {st : ServerState} {userId newId : String}
    {r : CreateTaskRequest} {t : Task}
    (ht : t ∈ (createTaskRoute now st userId newId r).tasks) :
    t ∈ st.tasks ∨ t.sharedWith = [] := by
  unfold createTaskRoute at ht
  by_cases hv : validateTask now r = true
  · rw [if_pos hv] at ht
    rcases List.mem_append.mp ht with h | h
    · exact Or.inl h
    · right
      rw [List.mem_singleton] at h
      subst h
      rfl
  · rw [if_neg hv] at ht
    exact Or.inl ht

/-- Every task in the collection after a share request is either an old
task or an old task with one user — not already shared, not the owner —
appended to its sharedWith. -/
lemma mem_shareTaskRoute_tasks {now : Int} {st : ServerState} {a tid e : String} {t : Task}
    (ht : t ∈ (shareTaskRoute now st a tid e).tasks) :
    t ∈ st.tasks ∨ ∃ task b, task ∈ st.tasks ∧ task.sharedWith.contains b = false ∧
      b ≠ task.owner ∧ t = { task with sharedWith := task.sharedWith ++ [b] } := by
  unfold shareTaskRoute at ht
  by_cases he : e = ""
  · rw [if_pos he] at ht
    exact Or.inl ht
  · rw [if_neg he] at ht
    cases hf : st.tasks.find? (fun x => x.tid == tid && x.owner == a) with
    | none =>
      simp only [hf] at ht
      exact Or.inl ht
    | some task =>
      simp only [hf] at ht
      cases hu : st.users.find? (fun u => u.email == lowerStr e) with
      | none =>
        simp only [hu] at ht
        exact Or.inl ht
      | some userB =>
        simp only [hu] at ht
        by_cases hc : task.sharedWith.contains userB.uid = true
        · rw [if_pos hc] at ht
          exact Or.inl ht
        · rw [if_neg hc] at ht
          by_cases hs : (userB.uid == a) = true
          · rw [if_pos hs] at ht
            exact Or.inl ht
          · rw [if_neg hs] at ht
            obtain ⟨x, hx, hfx⟩ := List.mem_map.mp ht
            by_cases hxt : (x.tid == tid) = true
            · rw [if_pos hxt] at hfx
              obtain ⟨htask, -, howner⟩ := find?_task_props hf
              refine Or.inr ⟨task, userB.uid, htask, Bool.eq_false_iff.mpr hc, ?_, hfx.symm⟩
              intro heq
              exact hs (by rw [beq_iff_eq, heq, howner])
            · rw [if_neg hxt] at hfx
              exact Or.inl (hfx ▸ hx)

/-- Every task in the collection after an unshare request is either an
old task or an old task with one user erased from its sharedWith. -/
lemma mem_unshareTaskRoute_tasks {now : Int} {st : ServerState} {a tid u : String} {t : Task}
    (ht : t ∈ (unshareTaskRoute now st a tid u).tasks) :
    t ∈ st.tasks ∨ ∃ task, task ∈ st.tasks ∧
      t = { task with sharedWith := task.sharedWith.erase u } := by
  unfold unshareTaskRoute at ht
  cases hf : st.tasks.find? (fun x => x.tid == tid && x.owner == a) with
  | none =>
    simp only [hf] at ht
    exact Or.inl ht
  | some task =>
    simp only [hf] at ht
    by_cases hc : task.sharedWith.contains u = true
    · rw [if_pos hc] at ht
      obtain ⟨x, hx, hfx⟩ := List.mem_map.mp ht
      by_cases hxt : (x.tid == tid) = true
      · rw [if_pos hxt] at hfx
        exact Or.inr ⟨task, List.mem_of_find?_eq_some hf, hfx.symm⟩
      · rw [if_neg hxt] at hfx
        exact Or.inl (hfx ▸ hx)
    · rw [if_neg hc] at ht
      exact Or.inl ht

/-- One operation preserves the owner-not-shared invariant. -/
lemma stepTasks_ownerNotShared {users : List UserRec} {tasks : List Task} {op : Int × Op}
    (h : ∀ t ∈ tasks, t.owner ∉ t.sharedWith) :
    ∀ t ∈ stepTasks users tasks op, t.owner ∉ t.sharedWith := by
  intro t ht
  obtain ⟨n, op⟩ := op
  cases op with
  | create userId newId r =>
    simp only [stepTasks] at ht
    rcases mem_createTaskRoute_tasks ht with h1 | h2
    · exact h t h1
    · rw [h2]
      exact List.not_mem_nil _
  | share a tid e =>
    simp only [stepTasks] at ht
    rcases mem_shareTaskRoute_tasks ht with h1 | ⟨task, b, hmem, -, hb, rfl⟩
    · exact h t h1
    · intro hin
      rcases List.mem_append.mp hin with hin | hin
      · exact h task hmem hin
      · rw [List.mem_singleton] at hin
        exact hb hin.symm
  | unshare a tid u =>
    simp only [stepTasks] at ht
    rcases mem_unshareTaskRoute_tasks ht with h1 | ⟨task, hmem, rfl⟩
    · exact h t h1
    · intro hin
      exact h task hmem (List.erase_subset u task.sharedWith hin)

/-- One operation preserves duplicate-freeness of every sharedWith. -/
lemma stepTasks_sharedNodup {users : List UserRec} {tasks : List Task} {op : Int × Op}
    (h : ∀ t ∈ tasks, t.sharedWith.Nodup) :
    ∀ t ∈ stepTasks users tasks op, t.sharedWith.Nodup := by
  intro t ht
  obtain ⟨n, op⟩ := op
  cases op with
  | create userId newId r =>
    simp only [stepTasks] at ht
    rcases mem_createTaskRoute_tasks ht with h1 | h2
    · exact h t h1
    · rw [h2]
      exact List.nodup_nil
  | share a tid e =>
    simp only [stepTasks] at ht
    rcases mem_shareTaskRoute_tasks ht with h1 | ⟨task, b, hmem, hcon, -, rfl⟩
    · exact h t h1
    · have hnb : b ∉ task.sharedWith := not_mem_of_contains_eq_false hcon
      refine List.nodup_append.mpr ⟨h task hmem, List.nodup_singleton b, ?_⟩
      intro x hx hxb
      rw [List.mem_singleton] at hxb
      exact hnb (hxb ▸ hx)
  | unshare a tid u =>
    simp only [stepTasks] at ht
    rcases mem_unshareTaskRoute_tasks ht with h1 | ⟨task, hmem, rfl⟩
    · exact h t h1
    · exact (h task hmem).erase u

/-- The owner-not-shared invariant holds along every operation sequence. -/
lemma runOps_ownerNotShared (users : List UserRec) (ops : List (Int × Op)) {tasks : List Task}
    (h : ∀ t ∈ tasks, t.owner ∉ t.sharedWith) :
    ∀ t ∈ runOps users tasks ops, t.owner ∉ t.sharedWith := by
  induction ops generalizing tasks with
  | nil => exact h
  | cons op rest ih => exact ih (stepTasks_ownerNotShared h)

/-- Duplicate-freeness holds along every operation sequence. -/
lemma runOps_sharedNodup (users : List UserRec) (ops : List (Int × Op)) {tasks : List Task}
    (h : ∀ t ∈ tasks, t.sharedWith.Nodup) :
    ∀ t ∈ runOps users tasks ops, t.sharedWith.Nodup := by
  induction ops generalizing tasks with
  | nil => exact h
  | cons op rest ih => exact ih (stepTasks_sharedNodup h)

/-- C7: over every sequence of create/share/unshare operations starting
from an empty task collection, no task ever has its owner inside its own
sharedWith set — creation initializes sharedWith to empty, and a share
request resolving to the owner themselves is answered 400 with the task
collection unchanged and no event emitted. -/
theorem C7_owner_never_in_own_shared (users : List UserRec) (ops : List (Int × Op)) :
    (∀ t ∈ runOps users [] ops, t.owner ∉ t.sharedWith) ∧
      (∀ (now : Int) (st : ServerState) (requesterId taskId email : String)
          (task : Task) (userB : UserRec),
        st.tasks.find? (fun x => x.tid == taskId && x.owner == requesterId) = some task →
        st.users.find? (fun u => u.email == lowerStr email) = some userB →
        userB.uid = requesterId →
        (shareTaskRoute now st requesterId taskId email).status = 400 ∧
          (shareTaskRoute now st requesterId taskId email).tasks = st.tasks ∧
          (shareTaskRoute now st requesterId taskId email).emissions = []) := by
  constructor
  · exact runOps_ownerNotShared users ops (fun t ht => absurd ht (List.not_mem_nil t))
  · intro now st requesterId taskId email task userB hfind huser hself
    unfold shareTaskRoute
    by_cases he : email = ""
    · rw [if_pos he]
      exact ⟨rfl, rfl, rfl⟩
    · rw [if_neg he]
      simp only [hfind, huser]
      by_cases hc : (task.sharedWith.contains userB.uid) = true
      · rw [if_pos hc]
        exact ⟨rfl, rfl, rfl⟩
      · rw [if_neg hc, if_pos (by rw [beq_iff_eq]; exact hself)]
        exact ⟨rfl, rfl, rfl⟩

/-- Concrete application of the C7 theorem: a create followed by a
self-share attempt, and the self-share rejection at the resulting
state. -/
theorem C7_witness :
    (∀ t ∈ runOps [⟨"a", some "fa", "a@x", "A", ""⟩] []
        [(0, Op.create "a" "t1" ⟨"T", none, none, none, none, none⟩),
          (1, Op.share "a" "t1" "a@x")],
      t.owner ∉ t.sharedWith) ∧
      (shareTaskRoute 1
        ⟨[⟨"a", some "fa", "a@x", "A", ""⟩],
          [⟨"t1", "T", none, "pending", "medium", none, "a", [], []⟩]⟩
        "a" "t1" "a@x").status = 400 :=
  ⟨(C7_owner_never_in_own_shared [⟨"a", some "fa", "a@x", "A", ""⟩]
      [(0, Op.create "a" "t1" ⟨"T", none, none, none, none, none⟩),
        (1, Op.share "a" "t1" "a@x")]).1,
    ((C7_owner_never_in_own_shared [⟨"a", some "fa", "a@x", "A", ""⟩] []).2 1
      ⟨[⟨"a", some "fa", "a@x", "A", ""⟩],
        [⟨"t1", "T", none, "pending", "medium", none, "a", [], []⟩]⟩
      "a" "t1" "a@x" ⟨"t1", "T", none, "pending", "medium", none, "a", [], []⟩
      ⟨"a", some "fa", "a@x", "A", ""⟩ (by decide) (by decide) rfl).1⟩

/-- C10: a share request resolving to a user already inside the task's
sharedWith set is answered 400 with the task collection unchanged and no
event emitted; consequently, over every sequence of create/share/unshare
operations from an empty task collection, no sharedWith set ever holds a
duplicate user id. -/
theorem C10_duplicate_share_rejected (users : List UserRec) (ops : List (Int × Op)) :
    (∀ (now : Int) (st : ServerState) (requesterId taskId email : String)
        (task : Task) (userB : UserRec),
      st.tasks.find? (fun x => x.tid == taskId && x.owner == requesterId) = some task →
      st.users.find? (fun u => u.email == lowerStr email) = some userB →
      task.sharedWith.contains userB.uid = true →
      (shareTaskRoute now st requesterId taskId email).status = 400 ∧
        (shareTaskRoute now st requesterId taskId email).tasks = st.tasks ∧
        (shareTaskRoute now st requesterId taskId email).emissions = []) ∧
      (∀ t ∈ runOps users [] ops, t.sharedWith.Nodup) := by
  constructor
  · intro now st requesterId taskId email task userB hfind huser hcon
    unfold shareTaskRoute
    by_cases he : email = ""
    · rw [if_pos he]
      exact ⟨rfl, rfl, rfl⟩
    · rw [if_neg he]
      simp only [hfind, huser]
      rw [if_pos hcon]
      exact ⟨rfl, rfl, rfl⟩
  · exact runOps_sharedNodup users ops (fun t ht => absurd ht (List.not_mem_nil t))

/-- Concrete application of the C10 theorem: sharing `t1` with `b` again
when `b` is already in sharedWith is rejected, and a create/share/share
sequence leaves every sharedWith duplicate-free. -/
theorem C10_witness :
    (shareTaskRoute 2
        ⟨[⟨"a", some "fa", "a@x", "A", ""⟩, ⟨"b", some "fb", "b@x", "B", ""⟩],
          [⟨"t1", "T", none, "pending", "medium", none, "a", ["b"], []⟩]⟩
        "a" "t1" "b@x").status = 400 ∧
      (∀ t ∈ runOps [⟨"a", some "fa", "a@x", "A", ""⟩, ⟨"b", some "fb", "b@x", "B", ""⟩] []
          [(0, Op.create "a" "t1" ⟨"T", none, none, none, none, none⟩),
            (1, Op.share "a" "t1" "b@x"), (2, Op.share "a" "t1" "b@x")],
        t.sharedWith.Nodup) :=
  ⟨((C10_duplicate_share_rejected
      [⟨"a", some "fa", "a@x", "A", ""⟩, ⟨"b", some "fb", "b@x", "B", ""⟩] []).1 2
      ⟨[⟨"a", some "fa", "a@x", "A", ""⟩, ⟨"b", some "fb", "b@x", "B", ""⟩],
        [⟨"t1", "T", none, "pending", "medium", none, "a", ["b"], []⟩]⟩
      "a" "t1" "b@x" ⟨"t1", "T", none, "pending", "medium", none, "a", ["b"], []⟩
      ⟨"b", some "fb", "b@x", "B", ""⟩ (by decide) (by decide) (by decide)).1,
    (C10_duplicate_share_rejected
      [⟨"a", some "fa", "a@x", "A", ""⟩, ⟨"b", some "fb", "b@x", "B", ""⟩]
      [(0, Op.create "a" "t1" ⟨"T", none, none, none, none, none⟩),
        (1, Op.share "a" "t1" "b@x"), (2, Op.share "a" "t1" "b@x")]).2⟩

end TaskFlow
